import Mathlib

/-!
Verification of `microscope.py` (vectorial light-sheet microscope simulation).

The Python source is shallowly embedded below.  Machine floats are modelled
as exact rationals (`ℚ`) where the code is purely algebraic, and as real
numbers (`ℝ`) where transcendental functions (`arcsin`, `sqrt`, `exp`) occur.
IEEE `NaN` markers are modelled by `Option` (`none` = NaN), with
NaN-absorbing arithmetic and `nan_to_num` mapping `none` to `0`, matching
`numpy` semantics for the operations the code performs.  Fallible Python
code (raised exceptions, unbound names) is modelled with `Except`/`Option`.
-/

/-- `Lens` class (microscope.py lines 27-30): numerical aperture, refractive
index of the image space, and rotation of the lens around the x-axis. -/
structure Lens where
  NA : ℚ
  RI : ℚ
  rot : ℚ
deriving DecidableEq

instance : Inhabited Lens := ⟨⟨0, 1, 0⟩⟩

/-! ## C3 : `calculate_system_specs` (lines 144-151) -/

/-- The magnification loop of `calculate_system_specs` (lines 144-150):
starting from `mag = 1`, even-indexed lenses multiply by their NA and
odd-indexed lenses divide by it. -/
def magAux : ℚ → ℕ → List Lens → ℚ
  | m, _, [] => m
  | m, i, l :: ls => magAux (if i % 2 = 0 then m * l.NA else m / l.NA) (i + 1) ls

/-- `self.mag` as computed by `calculate_system_specs`. -/
def mag (lenses : List Lens) : ℚ := magAux 1 0 lenses

/-- `self.axial_mag = self.mag**2*self.lenses[-1].RI/self.lenses[0].RI`
(line 151).  `getLastI`/`headI` stand for the Python `[-1]`/`[0]` accesses,
which the caller must make well-defined by supplying a non-empty list. -/
def axial_mag (lenses : List Lens) : ℚ :=
  mag lenses ^ 2 * (lenses.getLastI).RI / (lenses.headI).RI

/-- Spec-side reading of the claim: product of the NAs of the even-indexed
lenses. -/
def prodEvenNA (lenses : List Lens) : ℚ :=
  (((lenses.enum).filter (fun p => p.1 % 2 == 0)).map (fun p => p.2.NA)).prod

/-- Spec-side reading of the claim: product of the NAs of the odd-indexed
lenses. -/
def prodOddNA (lenses : List Lens) : ℚ :=
  (((lenses.enum).filter (fun p => p.1 % 2 == 1)).map (fun p => p.2.NA)).prod

/-- Recursive product of even-position NAs starting at index `i`. -/
def prodENA : ℕ → List Lens → ℚ
  | _, [] => 1
  | i, l :: ls => (if i % 2 = 0 then l.NA else 1) * prodENA (i + 1) ls

/-- Recursive product of odd-position NAs starting at index `i`. -/
def prodONA : ℕ → List Lens → ℚ
  | _, [] => 1
  | i, l :: ls => (if i % 2 = 0 then 1 else l.NA) * prodONA (i + 1) ls

lemma magAux_eq (ls : List Lens) : ∀ (m : ℚ) (i : ℕ),
    magAux m i ls = m * prodENA i ls * (prodONA i ls)⁻¹ := by
  induction ls with
  | nil => intro m i; simp [magAux, prodENA, prodONA]
  | cons l ls ih =>
    intro m i
    rw [magAux, ih]
    by_cases h : i % 2 = 0
    · simp only [prodENA, prodONA, if_pos h]
      ring
    · simp only [prodENA, prodONA, if_neg h]
      rw [div_eq_mul_inv, mul_inv]
      ring

lemma enumFrom_even_prod (ls : List Lens) : ∀ i : ℕ,
    ((((List.enumFrom i ls)).filter (fun p => p.1 % 2 == 0)).map
      (fun p => p.2.NA)).prod = prodENA i ls := by
  induction ls with
  | nil => intro i; simp [prodENA]
  | cons l ls ih =>
    intro i
    by_cases h : i % 2 = 0
    · have hb : (i % 2 == 0) = true := by simp [h]
      simp [List.enumFrom, List.filter, hb, h, prodENA, ih]
    · have hb : (i % 2 == 0) = false := by simp [h]
      simp [List.enumFrom, List.filter, hb, h, prodENA, ih]

lemma enumFrom_odd_prod (ls : List Lens) : ∀ i : ℕ,
    ((((List.enumFrom i ls)).filter (fun p => p.1 % 2 == 1)).map
      (fun p => p.2.NA)).prod = prodONA i ls := by
  induction ls with
  | nil => intro i; simp [prodONA]
  | cons l ls ih =>
    intro i
    rcases Nat.mod_two_eq_zero_or_one i with h | h
    · have hb : (i % 2 == 1) = false := by simp [h]
      simp [List.enumFrom, List.filter, hb, h, prodONA, ih]
    · have hb : (i % 2 == 1) = true := by simp [h]
      have h0 : ¬ i % 2 = 0 := by omega
      simp [List.enumFrom, List.filter, hb, h0, prodONA, ih]

lemma mag_eq_prod_div (lenses : List Lens) :
    mag lenses = prodEvenNA lenses / prodOddNA lenses := by
  rw [mag, magAux_eq, prodEvenNA, prodOddNA]
  rw [show lenses.enum = List.enumFrom 0 lenses from rfl]
  rw [enumFrom_even_prod, enumFrom_odd_prod, one_mul, div_eq_mul_inv]

/-- C3: for every non-empty lens list, `calculate_system_specs` sets the
transverse magnification to the product of even-indexed NAs divided by the
product of odd-indexed NAs, and the axial magnification to `mag²·RI_last/RI_first`;
consequently a single lens with `RI = 1` gives `mag = NA` and
`axial_mag = NA²`. -/
theorem c3_calculate_system_specs :
    (∀ lenses : List Lens, ∀ h : lenses ≠ [],
        mag lenses = prodEvenNA lenses / prodOddNA lenses ∧
        axial_mag lenses =
          mag lenses ^ 2 * (lenses.getLast h).RI / (lenses.head h).RI) ∧
    (∀ l : Lens, l.RI = 1 → mag [l] = l.NA ∧ axial_mag [l] = l.NA ^ 2) := by
  constructor
  · intro lenses h
    refine ⟨mag_eq_prod_div lenses, ?_⟩
    obtain ⟨a, t, rfl⟩ := List.exists_cons_of_ne_nil h
    rw [axial_mag, List.getLastI_eq_getLast?, List.getLast?_eq_getLast _ h,
      Option.iget_some, List.headI_cons, List.head_cons]
  · intro l hRI
    have hm : mag [l] = l.NA := by
      simp [mag, magAux]
    refine ⟨hm, ?_⟩
    rw [axial_mag, hm]
    simp [List.getLastI, List.headI, hRI, sq]

/-- Witness for C3 at a concrete two-lens system and a concrete single lens. -/
theorem c3_witness :
    (([⟨2,1,0⟩, ⟨3,1,0⟩] : List Lens) ≠ [] ∧
      mag [⟨2,1,0⟩, ⟨3,1,0⟩] =
        prodEvenNA [⟨2,1,0⟩, ⟨3,1,0⟩] / prodOddNA [⟨2,1,0⟩, ⟨3,1,0⟩]) ∧
    ((⟨2,1,0⟩ : Lens).RI = 1 ∧ mag [⟨2,1,0⟩] = (⟨2,1,0⟩ : Lens).NA) :=
  ⟨⟨by decide, (c3_calculate_system_specs.1 _ (by decide)).1⟩,
   ⟨by decide, (c3_calculate_system_specs.2 ⟨2,1,0⟩ (by decide)).1⟩⟩

/-! ## C10 : `add_lens` (lines 84-107) -/

/-- The kinds of value the `pos` argument of `add_lens` can take: a Python
bool (the default is `False`), an integer, a float (its value modelled
exactly by a rational), or a non-numeric value (a string, `None`, a
container, ...). -/
inductive PyPos where
  | bool (b : Bool)
  | int (z : ℤ)
  | float (x : ℚ)
  | other
deriving DecidableEq

/-- Python `pos == False`: true for `False` itself and for any numeric
zero — Python compares `0 == False` and `0.0 == False` as true — while a
non-numeric value compares unequal to `False`. -/
def pyEqFalse : PyPos → Bool
  | .bool b => !b
  | .int z => z == 0
  | .float x => x == 0
  | .other => false

/-- Python `type(pos) is int` (neither a bool nor a float is of type
`int`). -/
def pyIsInt : PyPos → Bool
  | .int _ => true
  | _ => false

/-- Python `list.insert(i, x)` semantics: a negative index counts from the
end and is clamped to `0`; an index past the end is clamped to the length. -/
def pyInsert {α : Type} (l : List α) (i : ℤ) (x : α) : List α :=
  let j : ℤ := if i < 0 then max 0 ((l.length : ℤ) + i) else min i (l.length : ℤ)
  List.insertIdx j.toNat x l

/-- Error kinds raised by `add_lens`. -/
inductive AddLensErr where
  | typeErr
  | valueErr
deriving DecidableEq

/-- `Microscope.add_lens` (lines 84-107): appends when `pos == False`
(which includes `pos = 0`), raises `TypeError` for non-integer `pos`,
raises `ValueError` when `len(lenses) < pos`, and otherwise inserts. -/
def add_lens (lenses : List Lens) (NA RI rot : ℚ) (pos : PyPos) :
    Except AddLensErr (List Lens) :=
  let lens : Lens := ⟨NA, RI, rot⟩
  if pyEqFalse pos then .ok (lenses ++ [lens])
  else if !pyIsInt pos then .error .typeErr
  else match pos with
    | .int z =>
        if (lenses.length : ℤ) < z then .error .valueErr
        else .ok (pyInsert lenses z lens)
    | _ => .error .typeErr

/-- C10 counterexample, refuting two clauses of the claim.  First, on the
two-lens list `[A, B]` with `pos = -1` (an integer with `pos ≤ len`), the
lens is inserted before the last element (Python's negative-index
semantics), i.e. the result is `[A, L, B]`; it is not inserted "at index
pos" under either reading of that phrase: it is not at the head
(`insertIdx (toNat (-1)) = insertIdx 0` would give `[L, A, B]`) and it is
not the element at Python index `-1` (the last element is `B`).  Second,
the non-integer `pos = 0.0` does not raise `TypeError`: `0.0 == False` is
true in Python, so the append branch of line 100 is taken. -/
theorem c10_counterexample :
    add_lens [⟨1,1,0⟩, ⟨2,1,0⟩] 3 1 0 (.int (-1)) =
      .ok [⟨1,1,0⟩, ⟨3,1,0⟩, ⟨2,1,0⟩] ∧
    ([⟨1,1,0⟩, ⟨3,1,0⟩, ⟨2,1,0⟩] : List Lens) ≠
      List.insertIdx ((-1 : ℤ)).toNat ⟨3,1,0⟩ [⟨1,1,0⟩, ⟨2,1,0⟩] ∧
    ([⟨1,1,0⟩, ⟨3,1,0⟩, ⟨2,1,0⟩] : List Lens).getLast? ≠ some ⟨3,1,0⟩ ∧
    add_lens [⟨1,1,0⟩] 3 1 0 (.float 0) = .ok [⟨1,1,0⟩, ⟨3,1,0⟩] := by
  exact ⟨rfl, by decide, by decide, rfl⟩

/-- C10 (amended): `pos = 0` (and the default `False`, and the float
`0.0`, which also compares equal to `False` in Python) appends, so
inserting at position 0 is impossible; a positive integer `pos ≤ len`
inserts at index `pos`; a *negative* integer `pos` inserts at the
Python-clamped index `max 0 (len + pos)` (not at "index pos"); a
non-integer `pos` that does not compare equal to `False` — `True`, a
nonzero float, or a non-numeric value — raises `TypeError`; an integer
`pos > len` raises `ValueError` and no list is returned. -/
theorem c10_add_lens_amended :
    (∀ (L : List Lens) (NA RI rot : ℚ),
        add_lens L NA RI rot (.int 0) = .ok (L ++ [⟨NA, RI, rot⟩]) ∧
        add_lens L NA RI rot (.bool false) = .ok (L ++ [⟨NA, RI, rot⟩]) ∧
        add_lens L NA RI rot (.float 0) = .ok (L ++ [⟨NA, RI, rot⟩])) ∧
    (∀ (L : List Lens) (NA RI rot : ℚ) (z : ℤ), 0 < z → z ≤ L.length →
        add_lens L NA RI rot (.int z) =
          .ok (List.insertIdx z.toNat ⟨NA, RI, rot⟩ L)) ∧
    (∀ (L : List Lens) (NA RI rot : ℚ) (z : ℤ), z < 0 →
        add_lens L NA RI rot (.int z) =
          .ok (List.insertIdx (max 0 ((L.length : ℤ) + z)).toNat ⟨NA, RI, rot⟩ L)) ∧
    (∀ (L : List Lens) (NA RI rot : ℚ),
        add_lens L NA RI rot (.bool true) = .error .typeErr ∧
        add_lens L NA RI rot .other = .error .typeErr) ∧
    (∀ (L : List Lens) (NA RI rot : ℚ) (x : ℚ), x ≠ 0 →
        add_lens L NA RI rot (.float x) = .error .typeErr) ∧
    (∀ (L : List Lens) (NA RI rot : ℚ) (z : ℤ), (L.length : ℤ) < z →
        add_lens L NA RI rot (.int z) = .error .valueErr) := by
  refine ⟨?_, ?_, ?_, ?_, ?_, ?_⟩
  · intro L NA RI rot
    exact ⟨rfl, rfl, rfl⟩
  · intro L NA RI rot z hz hlen
    have hz0 : (z == 0) = false := by simp; omega
    have hlt : ¬ ((L.length : ℤ) < z) := by omega
    simp only [add_lens, pyEqFalse, hz0, pyIsInt, Bool.false_eq_true, if_false,
      Bool.not_true, if_neg hlt]
    have : (if z < 0 then max 0 ((L.length : ℤ) + z) else min z (L.length : ℤ)) = z := by
      rw [if_neg (by omega)]
      omega
    simp [pyInsert, this]
  · intro L NA RI rot z hz
    have hz0 : (z == 0) = false := by simp; omega
    have hlt : ¬ ((L.length : ℤ) < z) := by
      have : (0 : ℤ) ≤ (L.length : ℤ) := Int.natCast_nonneg _
      omega
    simp only [add_lens, pyEqFalse, hz0, pyIsInt, Bool.false_eq_true, if_false,
      Bool.not_true, if_neg hlt]
    simp [pyInsert, if_pos hz]
  · intro L NA RI rot
    constructor <;> rfl
  · intro L NA RI rot x hx
    have hx0 : (x == 0) = false := by simp [hx]
    simp [add_lens, pyEqFalse, hx0, pyIsInt]
  · intro L NA RI rot z hz
    have hz0 : (z == 0) = false := by
      have : (0 : ℤ) ≤ (L.length : ℤ) := Int.natCast_nonneg _
      simp; omega
    simp [add_lens, pyEqFalse, hz0, pyIsInt, if_pos hz]

/-- Witness for C10 (amended) at concrete inputs, covering the positive,
negative, nonzero-float and out-of-range cases. -/
theorem c10_witness :
    (0 < (1 : ℤ) ∧ (1 : ℤ) ≤ ([⟨1,1,0⟩, ⟨2,1,0⟩] : List Lens).length ∧
      add_lens [⟨1,1,0⟩, ⟨2,1,0⟩] 3 1 0 (.int 1) =
        .ok (List.insertIdx (1 : ℤ).toNat ⟨3,1,0⟩ [⟨1,1,0⟩, ⟨2,1,0⟩])) ∧
    ((-1 : ℤ) < 0 ∧
      add_lens [⟨1,1,0⟩, ⟨2,1,0⟩] 3 1 0 (.int (-1)) =
        .ok (List.insertIdx
          (max 0 ((([⟨1,1,0⟩, ⟨2,1,0⟩] : List Lens).length : ℤ) + -1)).toNat
          ⟨3,1,0⟩ [⟨1,1,0⟩, ⟨2,1,0⟩])) ∧
    ((2 : ℚ) ≠ 0 ∧
      add_lens [⟨1,1,0⟩] 3 1 0 (.float 2) = .error .typeErr) ∧
    (([⟨1,1,0⟩] : List Lens).length : ℤ) < 5 ∧
      add_lens [⟨1,1,0⟩] 3 1 0 (.int 5) = .error .valueErr :=
  ⟨⟨by decide, by decide,
    c10_add_lens_amended.2.1 _ 3 1 0 1 (by decide) (by decide)⟩,
   ⟨by decide,
    c10_add_lens_amended.2.2.1 _ 3 1 0 (-1) (by decide)⟩,
   ⟨by decide,
    c10_add_lens_amended.2.2.2.2.1 _ 3 1 0 2 (by decide)⟩,
   by decide,
   c10_add_lens_amended.2.2.2.2.2 _ 3 1 0 5 (by decide)⟩

/-! ## C5 : rotation direction in `field_tracing_reverse` (lines 240-244) -/

/-- The in-place update loop of lines 241-244: `rotation_direction` starts
as an array of `-1` and, for `i = 1 .. n`, the entry at Python index `-i`
(i.e. `n - i`) is multiplied by `(-1)^((i+1)//2+1)`.  (Under the NumPy 1.x
value-based promotion the `uint8 * -1` initialisation yields a signed array
of `-1`s, which is what the integers here model.)  `rdLoop n k` is the array
after the first `k` iterations, as a function of the index. -/
def rdLoop (n : ℕ) : ℕ → (ℕ → ℤ)
  | 0 => fun _ => -1
  | k + 1 =>
      Function.update (rdLoop n k) (n - (k + 1))
        (rdLoop n k (n - (k + 1)) * (-1) ^ ((k + 1 + 1) / 2 + 1))

/-- The finished `rotation_direction` array, indexed forward as used by
`dir = rotation_direction[i]` in the lens loop (line 256). -/
def rotation_direction (n : ℕ) : ℕ → ℤ := rdLoop n n

lemma rdLoop_eq (n : ℕ) : ∀ k, k ≤ n → ∀ j,
    rdLoop n k j =
      if n - k ≤ j ∧ j < n then -(-1 : ℤ) ^ ((n - j + 1) / 2 + 1) else -1 := by
  intro k
  induction k with
  | zero =>
    intro _ j
    rw [if_neg (by omega)]
    rfl
  | succ k ih =>
    intro hk j
    have hkn : k ≤ n := by omega
    by_cases hj : j = n - (k + 1)
    · subst hj
      rw [rdLoop, Function.update_same, ih hkn _, if_neg (by omega),
        if_pos (by omega)]
      have hnj : n - (n - (k + 1)) = k + 1 := by omega
      rw [hnj]
      ring
    · rw [rdLoop, Function.update_noteq hj, ih hkn j]
      by_cases hc : n - k ≤ j ∧ j < n
      · rw [if_pos hc, if_pos (by omega)]
      · rw [if_neg hc, if_neg (by omega)]

lemma rotation_direction_eq (n j : ℕ) (h : j < n) :
    rotation_direction n j = -(-1 : ℤ) ^ ((n - j + 1) / 2 + 1) := by
  rw [rotation_direction, rdLoop_eq n n le_rfl j, if_pos ⟨by omega, h⟩]

/-- C5: the rotation-direction coefficient built by `field_tracing_reverse`
takes only the values `+1` and `-1`, and repeats with period 4 in the
reverse-order step index. -/
theorem c5_rotation_direction (n j : ℕ) (h : j < n) :
    (rotation_direction n j = 1 ∨ rotation_direction n j = -1) ∧
    (j + 4 < n → rotation_direction n (j + 4) = rotation_direction n j) := by
  constructor
  · rw [rotation_direction_eq n j h]
    rcases Nat.even_or_odd ((n - j + 1) / 2 + 1) with he | ho
    · right
      rw [he.neg_one_pow]
    · left
      rw [ho.neg_one_pow]
      ring
  · intro h4
    rw [rotation_direction_eq n (j + 4) (by omega), rotation_direction_eq n j h]
    have ha : (n - j + 1) / 2 + 1 = ((n - (j + 4) + 1) / 2 + 1) + 2 := by omega
    rw [ha]
    conv_rhs => rw [pow_add, neg_one_sq, mul_one]

/-- Witness for C5 at `n = 5`, `j = 0`. -/
theorem c5_witness :
    (0 < 5 ∧ (rotation_direction 5 0 = 1 ∨ rotation_direction 5 0 = -1)) ∧
    (0 + 4 < 5 ∧ rotation_direction 5 (0 + 4) = rotation_direction 5 0) :=
  ⟨⟨by decide, (c5_rotation_direction 5 0 (by decide)).1⟩,
   ⟨by decide, (c5_rotation_direction 5 0 (by decide)).2 (by decide)⟩⟩

/-! ## C8 : effective PSF combination (`calculate_PSF`, line 542) -/

/-- NumPy `arr.max()` over the `n × n × n` volume, as a left fold. -/
def vmax {α : Type} [LinearOrder α] (n : ℕ) (A : ℕ → ℕ → ℕ → α) : α :=
  ((List.range n) ×ˢ ((List.range n) ×ˢ (List.range n))).foldl
    (fun m p => max m (A p.1 p.2.1 p.2.2)) (A 0 0 0)

/-- `self.eff_PSF = (self.PSF/self.PSF.max())*(self.ls_PSF/self.ls_PSF.max())`
(line 542), element-wise. -/
def eff_PSF_combine {α : Type} [LinearOrderedField α] (n : ℕ)
    (PSF ls_PSF : ℕ → ℕ → ℕ → α) : ℕ → ℕ → ℕ → α :=
  fun i j k => PSF i j k / vmax n PSF * (ls_PSF i j k / vmax n ls_PSF)

lemma foldl_max_smul {α : Type} [LinearOrderedField α] (c : α) (hc : 0 ≤ c)
    (g : ℕ × ℕ × ℕ → α) :
    ∀ (L : List (ℕ × ℕ × ℕ)) (init : α),
      L.foldl (fun m p => max m (c * g p)) (c * init) =
        c * L.foldl (fun m p => max m (g p)) init := by
  intro L
  induction L with
  | nil => intro init; rfl
  | cons p L ih =>
    intro init
    rw [List.foldl_cons, List.foldl_cons, ← mul_max_of_nonneg _ _ hc, ih]

lemma vmax_smul {α : Type} [LinearOrderedField α] (n : ℕ) (c : α) (hc : 0 ≤ c)
    (A : ℕ → ℕ → ℕ → α) :
    vmax n (fun i j k => c * A i j k) = c * vmax n A :=
  foldl_max_smul c hc (fun p => A p.1 p.2.1 p.2.2) _ (A 0 0 0)

/-- C8: the effective-PSF combination is commutative in the two arms, and
rescaling either arm by a positive constant before the per-arm max
normalisation leaves the effective PSF unchanged. -/
theorem c8_eff_PSF_combine {α : Type} [LinearOrderedField α] (n : ℕ)
    (A B : ℕ → ℕ → ℕ → α) (c : α) (hc : 0 < c) (i j k : ℕ) :
    eff_PSF_combine n A B i j k = eff_PSF_combine n B A i j k ∧
    eff_PSF_combine n (fun a b d => c * A a b d) B i j k =
      eff_PSF_combine n A B i j k ∧
    eff_PSF_combine n A (fun a b d => c * B a b d) i j k =
      eff_PSF_combine n A B i j k := by
  refine ⟨mul_comm _ _, ?_, ?_⟩
  · rw [eff_PSF_combine, eff_PSF_combine, vmax_smul n c hc.le,
      mul_div_mul_left _ _ (ne_of_gt hc)]
  · rw [eff_PSF_combine, eff_PSF_combine, vmax_smul n c hc.le,
      mul_div_mul_left _ _ (ne_of_gt hc)]

/-- Witness for C8 at a concrete rational volume pair and `c = 2`. -/
theorem c8_witness :
    0 < (2 : ℚ) ∧
    eff_PSF_combine 1 (fun _ _ _ => (2 : ℚ)) (fun _ _ _ => 3) 0 0 0 =
      eff_PSF_combine 1 (fun _ _ _ => (3 : ℚ)) (fun _ _ _ => 2) 0 0 0 :=
  ⟨by decide,
   (c8_eff_PSF_combine 1 (fun _ _ _ => (2 : ℚ)) (fun _ _ _ => 3) 2
      (by decide) 0 0 0).1⟩

/-! ## C4 : the light-sheet aperture mask (`light_sheet`, lines 195-198) -/

/-- The mask of lines 195-198: start from ones, set NaN where the polar
angle exceeds the opening half-angle (`mask[theta>self.ls_opening]`), then
set NaN on all columns left of the centre (`mask[:,:M]`) and on all columns
right of the centre (`mask[:,M+1:]`), where `M = res//2`.  `none` models
NaN. -/
noncomputable def lsMask (res : ℕ) (theta : ℕ → ℕ → ℝ) (opening : ℝ)
    (i j : ℕ) : Option ℝ :=
  if opening < theta i j then none
  else if j < res / 2 then none
  else if res / 2 + 1 ≤ j then none
  else some 1

/-- C4 counterexample: with `res = 4` (centre column `M = 2`), a zero
polar-angle grid and opening `1`, pixel `(0,3)` is inside the half-angle
and inside the right half-plane `j ≥ M`, and pixel `(0,0)` is inside the
left half-plane `j ≤ M`, yet both are invalidated: the mask keeps only the
single centre column `j = M`, not a half-plane. -/
theorem c4_counterexample :
    lsMask 4 (fun _ _ => 0) 1 0 3 = none ∧ (0 : ℝ) ≤ 1 ∧ 4 / 2 ≤ 3 ∧
    lsMask 4 (fun _ _ => 0) 1 0 0 = none ∧ (0 : ℕ) ≤ 4 / 2 := by
  refine ⟨?_, by norm_num, by norm_num, ?_, by norm_num⟩
  · rw [lsMask, if_neg (by norm_num), if_neg (by norm_num), if_pos (by norm_num)]
  · rw [lsMask, if_neg (by norm_num), if_pos (by norm_num)]

/-- C4 (amended): the mask keeps exactly the pixels whose polar angle is
within the half-angle *and* which lie on the single centre column
`j = res // 2` (a one-pixel-wide slit, not a half-plane); every other pixel
is invalidated. -/
theorem c4_light_sheet_mask_amended (res : ℕ) (theta : ℕ → ℕ → ℝ)
    (opening : ℝ) (i j : ℕ) :
    (lsMask res theta opening i j = some 1 ↔
      theta i j ≤ opening ∧ j = res / 2) ∧
    (lsMask res theta opening i j = none ↔
      (opening < theta i j ∨ j ≠ res / 2)) := by
  rw [lsMask]
  by_cases h1 : opening < theta i j
  · rw [if_pos h1]
    constructor
    · simp only [false_iff, reduceCtorEq]
      rintro ⟨hle, _⟩
      exact absurd h1 (not_lt.mpr hle)
    · simp [h1]
  · rw [if_neg h1]
    by_cases h2 : j < res / 2
    · rw [if_pos h2]
      constructor
      · simp only [false_iff, reduceCtorEq]
        rintro ⟨_, hj⟩
        omega
      · simp only [true_iff]
        right
        omega
    · rw [if_neg h2]
      by_cases h3 : res / 2 + 1 ≤ j
      · rw [if_pos h3]
        constructor
        · simp only [false_iff, reduceCtorEq]
          rintro ⟨_, hj⟩
          omega
        · simp only [true_iff]
          right
          omega
      · rw [if_neg h3]
        have hj : j = res / 2 := by omega
        subst hj
        constructor
        · constructor
          · intro _
            exact ⟨not_lt.mp h1, rfl⟩
          · intro _
            rfl
        · constructor
          · intro hc
            exact absurd hc (by simp)
          · rintro (hlt | hne)
            · exact absurd hlt h1
            · exact absurd rfl hne

/-! ## C6 : NaN acceptance mask (lines 348-349) and downstream zeroing
(`calculate_PSF`, lines 530-539) -/

/-- NaN-aware real multiplication (`none` = NaN absorbs, as in IEEE). -/
def omul : Option ℝ → Option ℝ → Option ℝ
  | some a, some b => some (a * b)
  | _, _ => none

/-- NaN-aware real addition. -/
def oadd : Option ℝ → Option ℝ → Option ℝ
  | some a, some b => some (a + b)
  | _, _ => none

/-- `np.nan_to_num`: NaN becomes `0`, finite values pass through. -/
def nan_to_num (x : Option ℝ) : ℝ := x.getD 0

lemma omul_none_left (x : Option ℝ) : omul none x = none := by cases x <;> rfl

lemma omul_none_right (x : Option ℝ) : omul x none = none := by
  cases x <;> rfl

lemma oadd_none_left (x : Option ℝ) : oadd none x = none := by cases x <;> rfl

/-- Lines 348-349: `th_max = np.arcsin(lens.NA/lens.RI)` and
`lens.theta[lens.theta>th_max] = np.NaN`.  A pixel already NaN stays NaN
(IEEE comparison with NaN is false, and NaN is preserved). -/
noncomputable def maskAcceptance (NA RI : ℝ) (theta : ℕ → ℕ → Option ℝ) :
    ℕ → ℕ → Option ℝ :=
  fun i j =>
    match theta i j with
    | none => none
    | some t => if Real.arcsin (NA / RI) < t then none else some t

/-- One row of `np.einsum('abji,abi->abj', transform, Ei)` at pixel
`(a, b)`: the `j`-th component of the per-pixel matrix-vector product. -/
def jonesApply (T : Fin 3 → Fin 3 → Option ℝ) (E : Fin 3 → Option ℝ) :
    Fin 3 → Option ℝ :=
  fun m => oadd (oadd (omul (T m 0) (E 0)) (omul (T m 1) (E 1)))
    (omul (T m 2) (E 2))

/-- Line 531: `Ef = np.nan_to_num(apodization * einsum(transform, Ei))`. -/
def applyTransform (apod : ℕ → ℕ → Option ℝ)
    (T : ℕ → ℕ → Fin 3 → Fin 3 → Option ℝ)
    (Ei : ℕ → ℕ → Fin 3 → Option ℝ) : ℕ → ℕ → Fin 3 → ℝ :=
  fun a b m => nan_to_num (omul (apod a b) (jonesApply (T a b) (Ei a b) m))

/-- The contribution of pixel `(a, b)` to `np.sum(np.abs(Ef)**2)`
(line 535). -/
def pixelIntensity (E : ℕ → ℕ → Fin 3 → ℝ) (a b : ℕ) : ℝ :=
  ∑ m : Fin 3, (E a b m) ^ 2

/-- C6: after the acceptance-mask step every pixel whose polar angle
exceeds `arcsin(NA/RI)` is NaN, and wherever the transform is NaN at a
pixel, the evaluated field there is exactly `0` in every component and the
pixel contributes exactly `0` to the intensity sums (the functions are
total, so no error is ever raised). -/
theorem c6_acceptance_nan_zero (NA RI : ℝ) (theta : ℕ → ℕ → Option ℝ)
    (i j : ℕ) :
    (∀ t : ℝ, theta i j = some t → Real.arcsin (NA / RI) < t →
        maskAcceptance NA RI theta i j = none) ∧
    (∀ (apod : ℕ → ℕ → Option ℝ) (T : ℕ → ℕ → Fin 3 → Fin 3 → Option ℝ)
        (Ei : ℕ → ℕ → Fin 3 → Option ℝ) (a b : ℕ),
        (∀ r c : Fin 3, T a b r c = none) →
        (∀ m : Fin 3, applyTransform apod T Ei a b m = 0) ∧
        pixelIntensity (applyTransform apod T Ei) a b = 0) := by
  constructor
  · intro t ht hgt
    simp only [maskAcceptance, ht]
    rw [if_pos hgt]
  · intro apod T Ei a b hT
    have hE : ∀ m : Fin 3, applyTransform apod T Ei a b m = 0 := by
      intro m
      rw [applyTransform, jonesApply, hT m 0, omul_none_left, oadd_none_left,
        oadd_none_left, omul_none_right]
      rfl
    refine ⟨hE, ?_⟩
    rw [pixelIntensity]
    rw [Finset.sum_eq_zero]
    intro m _
    rw [hE m]
    ring

/-- Witness for C6 at a concrete angle grid and an all-NaN transform. -/
theorem c6_witness :
    ((fun _ _ => some 1 : ℕ → ℕ → Option ℝ) 0 0 = some 1 ∧
      Real.arcsin (0 / 1) < 1 ∧
      maskAcceptance 0 1 (fun _ _ => some 1) 0 0 = none) ∧
    ((∀ r c : Fin 3,
        (fun _ _ _ _ => (none : Option ℝ)) 0 0 r c = none) ∧
      applyTransform (fun _ _ => some 1) (fun _ _ _ _ => none)
        (fun _ _ _ => some 1) 0 0 0 = 0) := by
  have harc : Real.arcsin (0 / 1) < 1 := by
    rw [zero_div, Real.arcsin_zero]
    exact one_pos
  exact ⟨⟨rfl, harc,
      (c6_acceptance_nan_zero 0 1 (fun _ _ => some 1) 0 0).1 1 rfl harc⟩,
    ⟨fun _ _ => rfl,
      ((c6_acceptance_nan_zero 0 1 (fun _ _ => some 1) 0 0).2
        (fun _ _ => some 1) (fun _ _ _ _ => none) (fun _ _ _ => some 1) 0 0
        (fun _ _ => rfl)).1 0⟩⟩

/-! ## C7 : `analyze` (lines 411-433) -/

/-- `np.where(profile <= 0)[0][0]`: the first index `t < rem` (scanning
from `t`) where the profile is `≤ 0`; `none` models the `IndexError`
raised when no such index exists. -/
noncomputable def firstCrossFrom (f : ℕ → ℝ) : ℕ → ℕ → Option ℕ
  | _, 0 => none
  | t, rem + 1 => if f t ≤ 0 then some t else firstCrossFrom f (t + 1) rem

/-- `res = 1/(self.base_freq*cut/1e9)` (lines 423, 427, 431). -/
noncomputable def resOf (base_freq : ℝ) (cut : ℕ) : ℝ :=
  1 / (base_freq * cut / 1e9)

/-- Line 419: `poisson = self.MTF_poisson - np.sqrt(self.MTF_poisson.max())`. -/
noncomputable def poissonFloor (n : ℕ) (MTF : ℕ → ℕ → ℕ → ℝ) :
    ℕ → ℕ → ℕ → ℝ :=
  fun i j k => MTF i j k - Real.sqrt (vmax n MTF)

/-- First zero crossing of `poisson[N, N:, N]` (lines 421-422). -/
noncomputable def cutX (n : ℕ) (MTF : ℕ → ℕ → ℕ → ℝ) : Option ℕ :=
  firstCrossFrom (fun t => poissonFloor n MTF (n / 2) (n / 2 + t) (n / 2))
    0 (n - n / 2)

/-- First zero crossing of `poisson[N:, N, N]` (lines 425-426). -/
noncomputable def cutY (n : ℕ) (MTF : ℕ → ℕ → ℕ → ℝ) : Option ℕ :=
  firstCrossFrom (fun t => poissonFloor n MTF (n / 2 + t) (n / 2) (n / 2))
    0 (n - n / 2)

/-- First zero crossing of `poisson[N, N, N:]` (lines 429-430). -/
noncomputable def cutZ (n : ℕ) (MTF : ℕ → ℕ → ℕ → ℝ) : Option ℕ :=
  firstCrossFrom (fun t => poissonFloor n MTF (n / 2) (n / 2) (n / 2 + t))
    0 (n - n / 2)

/-- `Microscope.analyze` (lines 411-433): the three per-axis resolutions,
or `none` when any axis profile never crosses the noise floor (the
`IndexError` of `np.where(...)[0][0]` on an empty result). -/
noncomputable def analyze (n : ℕ) (MTF : ℕ → ℕ → ℕ → ℝ) (base_freq : ℝ) :
    Option (ℝ × ℝ × ℝ) :=
  match cutX n MTF, cutY n MTF, cutZ n MTF with
  | some a, some b, some c =>
      some (resOf base_freq a, resOf base_freq b, resOf base_freq c)
  | _, _, _ => none

lemma vmax_const {α : Type} [LinearOrder α] (n : ℕ) (c : α) :
    vmax n (fun _ _ _ => c) = c := by
  have h : ∀ (L : List (ℕ × ℕ × ℕ)), L.foldl (fun m _ => max m c) c = c := by
    intro L
    induction L with
    | nil => rfl
    | cons p L ih => rw [List.foldl_cons, max_self]; exact ih
  exact h _

lemma poissonFloor_zero (i j k : ℕ) :
    poissonFloor 3 (fun _ _ _ => 0) i j k = 0 := by
  rw [poissonFloor, vmax_const, Real.sqrt_zero, sub_zero]

/-- C7 counterexample: on the all-zero `3×3×3` MTF volume with base
frequency `1`, each axis profile crosses the noise floor already at index
`0` (a crossing does exist), and the reported resolutions are
`1/(1·0/1e9) = 1/0`, i.e. `0` in the real-field model (`inf` in NumPy) —
not strictly positive finite values. -/
theorem c7_counterexample :
    cutX 3 (fun _ _ _ => 0) = some 0 ∧
    analyze 3 (fun _ _ _ => 0) 1 = some (0, 0, 0) ∧ ¬ (0 : ℝ) < 0 := by
  have hx : cutX 3 (fun _ _ _ => 0) = some 0 := by
    rw [cutX]
    show firstCrossFrom _ 0 2 = some 0
    rw [firstCrossFrom, if_pos (le_of_eq (poissonFloor_zero _ _ _))]
  have hy : cutY 3 (fun _ _ _ => 0) = some 0 := by
    rw [cutY]
    show firstCrossFrom _ 0 2 = some 0
    rw [firstCrossFrom, if_pos (le_of_eq (poissonFloor_zero _ _ _))]
  have hz : cutZ 3 (fun _ _ _ => 0) = some 0 := by
    rw [cutZ]
    show firstCrossFrom _ 0 2 = some 0
    rw [firstCrossFrom, if_pos (le_of_eq (poissonFloor_zero _ _ _))]
  refine ⟨hx, ?_, lt_irrefl 0⟩
  rw [analyze, hx, hy, hz]
  have hres : resOf 1 0 = 0 := by
    rw [resOf]
    norm_num
  show some (resOf 1 0, resOf 1 0, resOf 1 0) = some (0, 0, 0)
  rw [hres]

/-- C7 (amended): `analyze` subtracts the square root of the noisy MTF's
maximum (its DC peak for the nonnegative volumes the pipeline produces)
and reports `1/(base_freq·cut/1e9)` per axis when all three crossings
exist; the reported resolution is strictly positive (hence finite in the
real model) whenever the crossing index is *nonzero* and the base frequency
is positive; when an axis has no crossing within the sampled range the step
yields the index-not-found condition instead of a value. -/
theorem c7_analyze_amended (n : ℕ) (MTF : ℕ → ℕ → ℕ → ℝ) (bf : ℝ) :
    (∀ a b c : ℕ, cutX n MTF = some a → cutY n MTF = some b →
        cutZ n MTF = some c →
        analyze n MTF bf = some (resOf bf a, resOf bf b, resOf bf c)) ∧
    (cutX n MTF = none ∨ cutY n MTF = none ∨ cutZ n MTF = none →
        analyze n MTF bf = none) ∧
    (0 < bf → ∀ a : ℕ, 0 < a → 0 < resOf bf a) := by
  refine ⟨?_, ?_, ?_⟩
  · intro a b c ha hb hc
    rw [analyze, ha, hb, hc]
  · intro h
    rcases hx : cutX n MTF with _ | a <;>
      rcases hy : cutY n MTF with _ | b <;>
        rcases hz : cutZ n MTF with _ | c <;>
          simp_all [analyze]
  · intro hbf a ha
    rw [resOf]
    have hca : (0 : ℝ) < a := by exact_mod_cast ha
    positivity

/-- Witness for C7 (amended): at `n = 0` the sampled range is empty, so no
crossing exists and `analyze` yields the index-not-found condition; and a
nonzero crossing index with positive base frequency gives a positive
resolution. -/
theorem c7_witness :
    (cutX 0 (fun _ _ _ => 0) = none ∨ cutY 0 (fun _ _ _ => 0) = none ∨
      cutZ 0 (fun _ _ _ => 0) = none) ∧
    analyze 0 (fun _ _ _ => 0) 1 = none ∧
    (0 < (1 : ℝ) ∧ 0 < 1 ∧ 0 < resOf 1 1) :=
  ⟨Or.inl rfl,
   (c7_analyze_amended 0 (fun _ _ _ => 0) 1).2.1 (Or.inl rfl),
   one_pos, Nat.one_pos,
   (c7_analyze_amended 0 (fun _ _ _ => 0) 1).2.2 one_pos 1 Nat.one_pos⟩

/-! ## C1, C2 : `make_MTF` (lines 361-391) -/

/-- `np.pad(self.eff_PSF, padding)` (line 368): zero-pad the `n³` volume by
`p` on each side. -/
def padVol (p n : ℕ) (A : ℕ → ℕ → ℕ → ℝ) : ℕ → ℕ → ℕ → ℝ :=
  fun i j k =>
    if p ≤ i ∧ i < p + n ∧ p ≤ j ∧ j < p + n ∧ p ≤ k ∧ k < p + n then
      A (i - p) (j - p) (k - p)
    else 0

/-- The crop `arr[padding:padding+res, padding:padding+res,
padding:padding+res]` (lines 375-380). -/
def cropVol (p : ℕ) (A : ℕ → ℕ → ℕ → ℝ) : ℕ → ℕ → ℕ → ℝ :=
  fun i j k => A (p + i) (p + j) (p + k)

/-- `np.fft.fftshift` on an `n³` volume: a cyclic roll by `n // 2` along
every axis. -/
def fftshiftV (n : ℕ) (A : ℕ → ℕ → ℕ → ℂ) : ℕ → ℕ → ℕ → ℂ :=
  fun i j k =>
    A ((i + n - n / 2) % n) ((j + n - n / 2) % n) ((k + n - n / 2) % n)

/-- `np.fft.fftn` on an `n³` volume: the plain 3-D discrete Fourier
transform. -/
noncomputable def dft3 (n : ℕ) (A : ℕ → ℕ → ℕ → ℂ) : ℕ → ℕ → ℕ → ℂ :=
  fun u v w =>
    ∑ i ∈ Finset.range n, ∑ j ∈ Finset.range n, ∑ k ∈ Finset.range n,
      A i j k *
        Complex.exp (-2 * Real.pi * Complex.I *
          (u * i + v * j + w * k) / n)

/-- The centered DFT used on lines 383-385:
`np.fft.fftshift(np.fft.fftn(np.fft.fftshift(x)))`. -/
noncomputable def centeredDFT (n : ℕ) (A : ℕ → ℕ → ℕ → ℂ) : ℕ → ℕ → ℕ → ℂ :=
  fftshiftV n (dft3 n (fftshiftV n A))

/-- Real volume viewed as a complex one (numpy real-to-complex FFT input). -/
def toC (A : ℕ → ℕ → ℕ → ℝ) : ℕ → ℕ → ℕ → ℂ := fun i j k => (A i j k : ℂ)

/-- `np.abs` of a complex volume (lines 386-388). -/
noncomputable def absVol (A : ℕ → ℕ → ℕ → ℂ) : ℕ → ℕ → ℕ → ℝ :=
  fun i j k => Complex.abs (A i j k)

/-- Modelled from the spec: `add_noise` lives in `other_functions.py`,
which is not among the sources here.  Per the spec it is the detector-noise
injector, "given a real volume, target squared-SNR, offset, and RMS", and
it "returns (noiseless-padded, noisy) volume pair", the noisy volume
carrying Poisson shot noise scaled so the brightest voxel matches the
target SNR² plus Gaussian readout noise with the camera's offset and RMS.
The random draw is abstracted as the `noise` parameter; the first component
is the unchanged noise-free padded volume. -/
def add_noise (noise : (ℕ → ℕ → ℕ → ℝ) → ℝ → ℝ → ℝ → (ℕ → ℕ → ℕ → ℝ))
    (vol : ℕ → ℕ → ℕ → ℝ) (snr2 offset rms : ℝ) :
    (ℕ → ℕ → ℕ → ℝ) × (ℕ → ℕ → ℕ → ℝ) :=
  (vol, noise vol snr2 offset rms)

/-- The configuration fields read by `make_MTF`. -/
structure MTFConfig where
  res : ℕ
  OTF_res : ℕ
  eff_PSF : ℕ → ℕ → ℕ → ℝ
  vox : ℝ
  mag : ℝ
  offset : ℝ
  RMS : ℝ
  SNR : ℚ

/-- The fields `make_MTF` populates. -/
structure MTFOut where
  PSF_poisson : ℕ → ℕ → ℕ → ℝ
  PSF_readout : ℕ → ℕ → ℕ → ℝ
  MTF_noiseless : ℕ → ℕ → ℕ → ℝ
  MTF_poisson : ℕ → ℕ → ℕ → ℝ
  MTF_readout : ℕ → ℕ → ℕ → ℝ
  base_freq : ℝ

/-- `Microscope.make_MTF` (lines 361-391).  When `SNR != 0` the call
`product, poisson = add_noise(...)` rebinds `product` and binds `poisson`,
and the method completes.  When `SNR == 0` the branch is skipped, so the
name `poisson` is never bound and the crop on line 375 raises `NameError`;
this failure is modelled by `none`. -/
noncomputable def make_MTF
    (noise : (ℕ → ℕ → ℕ → ℝ) → ℝ → ℝ → ℝ → (ℕ → ℕ → ℕ → ℝ))
    (c : MTFConfig) : Option MTFOut :=
  let padding := (c.OTF_res - c.res) / 2
  let product := padVol padding c.res c.eff_PSF
  if c.SNR = 0 then none
  else
    let pr := add_noise noise product ((c.SNR : ℝ) ^ 2) c.offset c.RMS
    some
      { PSF_poisson := cropVol padding pr.2
        PSF_readout := cropVol padding pr.1
        MTF_noiseless := absVol (centeredDFT c.OTF_res (toC pr.1))
        MTF_poisson := absVol (centeredDFT c.OTF_res (toC pr.2))
        MTF_readout := absVol (centeredDFT c.OTF_res (toC pr.1))
        base_freq := 1 / (c.OTF_res * (c.vox / c.mag)) }

/-- C2: the claim says `make_MTF` with `SNR == 0` skips noise injection and
still completes, populating the cropped PSFs and MTFs noise-free.  The code
does not: skipping the `if` leaves the name `poisson` unbound and the crop
on line 375 raises `NameError`, so nothing is populated.  Evaluated at a
concrete configuration with `SNR = 0`. -/
theorem c2_make_MTF_snr_zero_fails :
    make_MTF (fun v _ _ _ => v)
      { res := 2, OTF_res := 4, eff_PSF := fun _ _ _ => 0,
        vox := 1, mag := 1, offset := 100, RMS := 14 / 10, SNR := 0 } =
      none := by
  rw [make_MTF]
  norm_num

lemma make_MTF_noiseless_eq
    (noise : (ℕ → ℕ → ℕ → ℝ) → ℝ → ℝ → ℝ → (ℕ → ℕ → ℕ → ℝ))
    (c : MTFConfig) (h : c.SNR ≠ 0) :
    (make_MTF noise c).map MTFOut.MTF_noiseless =
      some (absVol (centeredDFT c.OTF_res
        (toC (padVol ((c.OTF_res - c.res) / 2) c.res c.eff_PSF)))) := by
  rw [make_MTF]
  simp only [if_neg h]
  rfl

/-- C1: whenever `make_MTF` completes (`SNR ≠ 0`, the only completing
case), the noiseless MTF it produces is the magnitude of the centered 3-D
DFT of the zero-padded effective PSF before any noise injection, and it is
unchanged when only the SNR setting (and the injected-noise draw) changes. -/
theorem c1_MTF_noiseless_invariant
    (noise : (ℕ → ℕ → ℕ → ℝ) → ℝ → ℝ → ℝ → (ℕ → ℕ → ℕ → ℝ))
    (c : MTFConfig) (h : c.SNR ≠ 0) :
    (make_MTF noise c).map MTFOut.MTF_noiseless =
      some (absVol (centeredDFT c.OTF_res
        (toC (padVol ((c.OTF_res - c.res) / 2) c.res c.eff_PSF)))) ∧
    (∀ (noise2 : (ℕ → ℕ → ℕ → ℝ) → ℝ → ℝ → ℝ → (ℕ → ℕ → ℕ → ℝ))
        (snr2 : ℚ), snr2 ≠ 0 →
        (make_MTF noise c).map MTFOut.MTF_noiseless =
          (make_MTF noise2 { c with SNR := snr2 }).map MTFOut.MTF_noiseless) := by
  refine ⟨make_MTF_noiseless_eq noise c h, ?_⟩
  intro noise2 snr2 h2
  rw [make_MTF_noiseless_eq noise c h, make_MTF_noiseless_eq noise2 _ h2]

/-- Witness for C1: a concrete configuration at `SNR = 5` versus `SNR = 50`
with different noise draws. -/
theorem c1_witness :
    ((5 : ℚ) ≠ 0 ∧ (50 : ℚ) ≠ 0) ∧
    (make_MTF (fun v _ _ _ => v)
        { res := 2, OTF_res := 4, eff_PSF := fun _ _ _ => 1,
          vox := 1, mag := 1, offset := 100, RMS := 14 / 10,
          SNR := 5 }).map MTFOut.MTF_noiseless =
      (make_MTF (fun _ _ _ _ => fun _ _ _ => 7)
        { res := 2, OTF_res := 4, eff_PSF := fun _ _ _ => 1,
          vox := 1, mag := 1, offset := 100, RMS := 14 / 10,
          SNR := 50 }).map MTFOut.MTF_noiseless :=
  ⟨⟨by decide, by decide⟩,
   (c1_MTF_noiseless_invariant (fun v _ _ _ => v)
      { res := 2, OTF_res := 4, eff_PSF := fun _ _ _ => 1,
        vox := 1, mag := 1, offset := 100, RMS := 14 / 10, SNR := 5 }
      (by decide)).2 (fun _ _ _ _ => fun _ _ _ => 7) 50 (by decide)⟩

/-! ## C9 : progress sink in `calculate_PSF` (lines 506-513) -/

/-- Where a progress report lands: the GUI load bar (`GUI.pbar.setValue`)
or the terminal fallback (`loadbar(i, len(phi))`, taken when the attribute
access on an absent GUI raises and the bare `except` catches it). -/
inductive ProgressEvent where
  | gui (pct : ℕ)
  | terminal (i total : ℕ)
deriving DecidableEq

/-- Opaque stand-in for the PyQt5 GUI object. -/
structure Gui where
  id : ℕ

/-- Lines 510-513: `try: GUI.pbar.setValue(100*(i+1)//len(phi))` with the
terminal load bar as the `except` fallback.  Total function: an absent sink
is not an error. -/
def report (g : Option Gui) (i total : ℕ) : ProgressEvent :=
  match g with
  | some _ => .gui (100 * (i + 1) / total)
  | none => .terminal i total

/-- The external collaborators and fixed per-run inputs read by the dipole
loop of `calculate_PSF` (lines 493-539): the Fibonacci-lattice dipole
angles from `make_pol`, the anisotropy setting, the rotated mean
illumination polarization `l_p`, `E_0`, `collected_field` (with the first
lens's angle grids fixed), the apodization and transform from
`field_tracing_reverse`, and `dft2_volume` (with `k_z`, `z_val`, `bao`,
`res` and `scaling` fixed).  All are out-of-scope collaborators with fixed
contracts, so they are carried as opaque function fields. -/
structure DipoleExt where
  nDip : ℕ
  dipTheta : ℕ → ℝ
  dipPhi : ℕ → ℝ
  anisotropy : ℚ
  l_p : Fin 3 → ℝ
  E0 : (Fin 3 → ℝ) → ℝ → (ℕ → ℕ → Fin 3 → Option ℝ)
  collected : (Fin 3 → ℝ) → ℝ
  apod : ℕ → ℕ → Option ℝ
  transform : ℕ → ℕ → Fin 3 → Fin 3 → Option ℝ
  res : ℕ
  dft2_volume : (ℕ → ℕ → Fin 3 → ℝ) → (ℕ → ℕ → ℕ → ℝ)

/-- The numeric accumulator state of the dipole loop: `tti`, `ani` and the
running PSF sum (lines 502-504). -/
structure DipoleState where
  tti : List ℝ
  ani : List ℝ
  PSF : ℕ → ℕ → ℕ → ℝ

/-- `np.sum(np.abs(np.nan_to_num(Ei))**2)` (line 534). -/
noncomputable def totalIntensityO (res : ℕ) (E : ℕ → ℕ → Fin 3 → Option ℝ) : ℝ :=
  ∑ a ∈ Finset.range res, ∑ b ∈ Finset.range res,
    ∑ m : Fin 3, (nan_to_num (E a b m)) ^ 2

/-- `np.sum(np.abs(Ef)**2)` (line 535). -/
noncomputable def totalIntensity (res : ℕ) (E : ℕ → ℕ → Fin 3 → ℝ) : ℝ :=
  ∑ a ∈ Finset.range res, ∑ b ∈ Finset.range res, pixelIntensity E a b

/-- One iteration of the dipole loop (lines 515-539), after the progress
report: dipole polarization from `(θ, φ)`, excitation coefficient `Ae`
(`1` when anisotropy is `0`, `|pol·l_p|` when it is `0.4`, and an unbound
name — `none` — otherwise), the `ani` append, the initial and final fields,
the transmitted-intensity ratio append, and the PSF accumulation. -/
noncomputable def dipoleBody (ext : DipoleExt) (i : ℕ) (st : DipoleState) :
    Option DipoleState :=
  let pol : Fin 3 → ℝ :=
    ![Real.sin (ext.dipTheta i) * Real.cos (ext.dipPhi i),
      Real.sin (ext.dipTheta i) * Real.sin (ext.dipPhi i),
      Real.cos (ext.dipTheta i)]
  let AeQ : Option ℝ :=
    if ext.anisotropy = 0 then some 1
    else if ext.anisotropy = 2 / 5 then
      some |pol 0 * ext.l_p 0 + pol 1 * ext.l_p 1 + pol 2 * ext.l_p 2|
    else none
  match AeQ with
  | none => none
  | some Ae =>
      let Ei := ext.E0 pol Ae
      let Ef := applyTransform ext.apod ext.transform Ei
      some
        { tti := st.tti ++ [totalIntensity ext.res Ef / totalIntensityO ext.res Ei]
          ani := st.ani ++ [ext.collected pol * Ae]
          PSF := fun a b k => st.PSF a b k + ext.dft2_volume Ef a b k }

/-- The dipole loop over a list of dipole indices, pairing the numeric
result (or the failure of an iteration) with the progress events emitted
along the way. -/
noncomputable def runDipoles (ext : DipoleExt) (g : Option Gui) :
    DipoleState → List ℕ → Option DipoleState × List ProgressEvent
  | st, [] => (some st, [])
  | st, i :: rest =>
      match dipoleBody ext i st with
      | none => (none, [report g i ext.nDip])
      | some st2 =>
          ((runDipoles ext g st2 rest).1,
            report g i ext.nDip :: (runDipoles ext g st2 rest).2)

/-- The dipole-ensemble loop of `calculate_PSF` (lines 506-539). -/
noncomputable def calculate_PSF_loop (ext : DipoleExt) (g : Option Gui)
    (st : DipoleState) : Option DipoleState × List ProgressEvent :=
  runDipoles ext g st (List.range ext.nDip)

/-- C9: the numeric outcome of the dipole loop is identical for any two
progress sinks (GUI object present or `GUI = None`), and with the sink
absent every per-dipole report takes the total terminal fallback — a
defined value, never an exception. -/
theorem c9_progress_sink_noninterference (ext : DipoleExt)
    (g1 g2 : Option Gui) (st : DipoleState) :
    (calculate_PSF_loop ext g1 st).1 = (calculate_PSF_loop ext g2 st).1 ∧
    (∀ i total : ℕ, report none i total = ProgressEvent.terminal i total) := by
  constructor
  · rw [calculate_PSF_loop, calculate_PSF_loop]
    generalize List.range ext.nDip = l
    induction l generalizing st with
    | nil => rfl
    | cons i rest ih =>
        rw [runDipoles, runDipoles]
        cases hb : dipoleBody ext i st with
        | none => simp only [hb]
        | some st2 =>
            simp only [hb]
            exact ih st2
  · intro i total
    rfl
